import Mathlib

/-!
Verification of the weaverbird session layer
(`src/weaverbird/session/session.ts`).

The `Session` class is embedded shallowly: its mutable fields become a
`Session` structure, each method becomes a pure function from the old
session (plus the outcomes of the external calls the method awaits) to the
new session, and thrown errors become `Except Err` results.  Methods whose
observable behaviour is a sequence of effects (backend calls, cancellation,
file writes) additionally return a trace of those effects in execution
order.  External collaborators (the proxy client, the file packaging
utilities, the virtual file system, the states' `interact`) are parameters:
their outcomes are inputs of the corresponding functions.
-/

deriving instance DecidableEq for Except

namespace Weaverbird

/-- Errors thrown by the session layer: `ConversationIdNotFoundError`
(`../errors`), the plain `Error`s thrown by the `uploadId` and `state`
getters, and failures of awaited external calls. -/
inductive Err where
  | conversationIdNotFound
  | uploadIdUnset
  | stateUnset
  | externalFailure (msg : String)
deriving DecidableEq

/-- Identity of the three conversation-phase state classes
(`ConversationNotStartedState`, `RefinementState`, `CodeGenState`). -/
inductive StateKind where
  | conversationNotStarted
  | refinement
  | codeGen
deriving DecidableEq

/-- Modelled from the spec: the per-phase state object defined in
`sessionState.ts` (not among the sources), reduced to the fields
`session.ts` reads or writes: its `phase` tag, its `approach` text, its
cancellation token source (as a cancelled flag), its `filePaths`, and the
conversation/upload identifiers of its config. -/
structure SessionState where
  kind : StateKind
  phase : String
  approach : String
  tabID : String
  conversationId : Option String
  uploadId : Option String
  tokenSourceCancelled : Bool
  filePaths : Option (List String)
deriving DecidableEq

/-- The part of `SessionStateConfig` the session layer manipulates:
`llmConfig`, `workspaceRoot`, `backendConfig` and `proxyClient` are opaque
pass-through data and are omitted. -/
structure SessionStateConfig where
  conversationId : String
  uploadId : String
deriving DecidableEq

/-- Modelled from the spec: the constructor `ConversationNotStartedState
(approach, tabID)` of `sessionState.ts`.  Its phase is the initial
not-started one, which per the glossary is neither `Approach` nor
`Codegen`; the tag `Init` stands for it. -/
def ConversationNotStartedState (approach tabID : String) : SessionState :=
  { kind := StateKind.conversationNotStarted
    phase := "Init"
    approach := approach
    tabID := tabID
    conversationId := none
    uploadId := none
    tokenSourceCancelled := false
    filePaths := none }

/-- Modelled from the spec: the constructor `RefinementState(config,
approach, tabID)` of `sessionState.ts`; refinement is the `Approach`
phase. -/
def RefinementState (config : SessionStateConfig) (approach tabID : String) : SessionState :=
  { kind := StateKind.refinement
    phase := "Approach"
    approach := approach
    tabID := tabID
    conversationId := some config.conversationId
    uploadId := some config.uploadId
    tokenSourceCancelled := false
    filePaths := none }

/-- Modelled from the spec: the constructor `CodeGenState(config,
approach, tabID)` of `sessionState.ts`; code generation is the `Codegen`
phase. -/
def CodeGenState (config : SessionStateConfig) (approach tabID : String) : SessionState :=
  { kind := StateKind.codeGen
    phase := "Codegen"
    approach := approach
    tabID := tabID
    conversationId := some config.conversationId
    uploadId := some config.uploadId
    tokenSourceCancelled := false
    filePaths := none }

/-- The mutable fields of the `Session` class (session.ts:23-31), plus the
`workspaceRoot` of its config and its `tabID`, which are the only
constructor arguments the embedded methods consult. -/
structure Session where
  _state : Option SessionState
  task : String
  approach : String
  _conversationId : Option String
  _uploadId : Option String
  approachRetries : Int
  codeGenRetries : Int
  workspaceRoot : String
  tabID : String
deriving DecidableEq

/-- Modelled from the spec: the constant `approachRetryLimit` of
`../limits` (not among the sources); its numeric value is never relied
upon. -/
def approachRetryLimit : Int := 3

/-- Modelled from the spec: the constant `codeGenRetryLimit` of
`../limits` (not among the sources); its numeric value is never relied
upon. -/
def codeGenRetryLimit : Int := 3

/-- The `Session` constructor (session.ts:33-39): the state starts as
`ConversationNotStartedState('', tabID)` and the retry counters start at
their limits. -/
def mkSession (workspaceRoot tabID : String) : Session :=
  { _state := some (ConversationNotStartedState "" tabID)
    task := ""
    approach := ""
    _conversationId := none
    _uploadId := none
    approachRetries := approachRetryLimit
    codeGenRetries := codeGenRetryLimit
    workspaceRoot := workspaceRoot
    tabID := tabID }

/-- Getter `conversationId` (session.ts:170-175): `if
(!this._conversationId) throw new ConversationIdNotFoundError()`.  The
check is JavaScript falsiness, so both an unset field and a stored empty
string throw. -/
def Session.conversationId (s : Session) : Except Err String :=
  match s._conversationId with
  | none => Except.error Err.conversationIdNotFound
  | some c => if c = "" then Except.error Err.conversationIdNotFound else Except.ok c

/-- Getter `uploadId` (session.ts:177-182): `if (!this._uploadId) throw
new Error(...)`, again by JavaScript falsiness. -/
def Session.uploadId (s : Session) : Except Err String :=
  match s._uploadId with
  | none => Except.error Err.uploadIdUnset
  | some u => if u = "" then Except.error Err.uploadIdUnset else Except.ok u

/-- Getter `state` (session.ts:142-147): throws when `_state` is
undefined. -/
def Session.state (s : Session) : Except Err SessionState :=
  match s._state with
  | none => Except.error Err.stateUnset
  | some st => Except.ok st

/-- Method `getSessionStateConfig` (session.ts:66-75): builds a config
from the two getters (each of which may throw). -/
def Session.getSessionStateConfig (s : Session) : Except Err SessionStateConfig := do
  let conv ← s.conversationId
  let upl ← s.uploadId
  return { conversationId := conv, uploadId := upl }

/-- Method `initCodegen` (session.ts:80-89): installs a `CodeGenState`
built from `getSessionStateConfig()` with `conversationId` re-read from
the getter, the session's current approach, and the tab id. -/
def Session.initCodegen (s : Session) : Except Err Session := do
  let cfg ← s.getSessionStateConfig
  let conv ← s.conversationId
  return { s with
    _state := some (CodeGenState { cfg with conversationId := conv } s.approach s.tabID) }

/-- Outcomes of the external calls `setupConversation` awaits: the proxy
client's `createConversation` and `createUploadUrl`, the local helpers
`getSourceCodePath` and `prepareRepoData` (zip buffer and checksum), and
`uploadCode`.  Each may fail. -/
structure Backend where
  createConversation : Except Err String
  getSourceCodePath : String → String → Except Err String
  prepareRepoData : String → Except Err (String × String)
  createUploadUrl : String → String → Except Err (String × String)
  uploadCode : String → String → Except Err Unit

/-- Observable backend calls of `setupConversation`, with the arguments
they were given. -/
inductive BackendCall where
  | createConversation
  | createUploadUrl (conversationId checksum : String)
  | uploadCode (url blob : String)
deriving DecidableEq

/-- Method `setupConversation` (session.ts:46-64).  Returns the session
after the call (including the partial field updates already performed when
a later step throws), the backend calls made in order, and the outcome. -/
def Session.setupConversation (s : Session) (b : Backend) :
    Session × List BackendCall × Except Err Unit :=
  match b.createConversation with
  | Except.error e => (s, [BackendCall.createConversation], Except.error e)
  | Except.ok convId =>
    let s1 := { s with _conversationId := some convId }
    match b.getSourceCodePath s1.workspaceRoot "src" with
    | Except.error e => (s1, [BackendCall.createConversation], Except.error e)
    | Except.ok repoRootPath =>
      match b.prepareRepoData repoRootPath with
      | Except.error e => (s1, [BackendCall.createConversation], Except.error e)
      | Except.ok (zipFileBuffer, zipFileChecksum) =>
        match b.createUploadUrl convId zipFileChecksum with
        | Except.error e =>
          (s1, [BackendCall.createConversation,
                BackendCall.createUploadUrl convId zipFileChecksum], Except.error e)
        | Except.ok (uploadUrl, uploadId) =>
          let s2 := { s1 with _uploadId := some uploadId }
          let calls := [BackendCall.createConversation,
                        BackendCall.createUploadUrl convId zipFileChecksum,
                        BackendCall.uploadCode uploadUrl zipFileBuffer]
          match b.uploadCode uploadUrl zipFileBuffer with
          | Except.error e => (s2, calls, Except.error e)
          | Except.ok _ =>
            match s2.getSessionStateConfig with
            | Except.error e => (s2, calls, Except.error e)
            | Except.ok cfg =>
              match s2.conversationId with
              | Except.error e => (s2, calls, Except.error e)
              | Except.ok conv =>
                ({ s2 with
                    _state := some (RefinementState { cfg with conversationId := conv } "" s2.tabID) },
                 calls, Except.ok ())

/-- Result of a state's `interact`: an optional successor state and the
interaction returned to the caller (modelled as its payload text). -/
structure SessionStateInteraction where
  nextState : Option SessionState
  interaction : String
deriving DecidableEq

/-- Observable per-step effects of `nextInteraction`'s successor handling,
in execution order: reading the outgoing state's approach, cancelling the
outgoing state's token source, installing the successor as `_state`, and
the two approach writes. -/
inductive Event where
  | readApproach (a : String)
  | cancelToken
  | installState
  | setStateApproach (a : String)
  | setSessionApproach (a : String)
deriving DecidableEq

/-- Method `nextInteraction` (session.ts:100-127).  `filesRes` is the
outcome of `collectFiles`, `interactRes` the outcome of the current
state's `interact`.  Returns the session after the call, the trace of
successor-handling effects in execution order, and the returned
interaction (or the thrown error). -/
def Session.nextInteraction (s : Session) (filesRes : Except Err (List String))
    (interactRes : Except Err SessionStateInteraction) :
    Session × List Event × Except Err String :=
  match filesRes with
  | Except.error e => (s, [], Except.error e)
  | Except.ok _ =>
    match s.state with
    | Except.error e => (s, [], Except.error e)
    | Except.ok st =>
      match interactRes with
      | Except.error e => (s, [], Except.error e)
      | Except.ok resp =>
        match resp.nextState with
        | none => (s, [], Except.ok resp.interaction)
        | some nextSt =>
          let newApproach := st.approach
          ({ s with
              _state := some { nextSt with approach := newApproach }
              approach := newApproach },
           [Event.readApproach newApproach, Event.cancelToken, Event.installState,
            Event.setStateApproach newApproach, Event.setSessionApproach newApproach],
           Except.ok resp.interaction)

/-- Method `send` (session.ts:91-98): stores the message as the task when
the task is still empty, then runs `nextInteraction`. -/
def Session.send (s : Session) (msg : String) (filesRes : Except Err (List String))
    (interactRes : Except Err SessionStateInteraction) :
    Session × List Event × Except Err String :=
  let s1 := if s.task = "" then { s with task := msg } else s
  s1.nextInteraction filesRes interactRes

/-- Modelled from the spec: the URI scheme constant `weaverbirdScheme` of
`../constants` (not among the sources); only its identity matters. -/
def weaverbirdScheme : String := "weaverbird"

/-- Observable file-system effects of `acceptChanges`, in execution order:
reading a virtual document, creating a directory, writing a file. -/
inductive FsOp where
  | readVirtual (scheme p : String)
  | mkdir (p : String)
  | writeFile (p content : String)
deriving DecidableEq

/-- Splitting of a character list at `/`, the posix analogue of
`splitOn`. -/
def splitSlash : List Char → List (List Char)
  | [] => [[]]
  | c :: cs =>
    match splitSlash cs with
    | [] => [[]]
    | seg :: rest => if c = '/' then [] :: seg :: rest else (c :: seg) :: rest

/-- Joining of path segments with `/` between them. -/
def joinSegs : List (List Char) → List Char
  | [] => []
  | [seg] => seg
  | seg :: rest => seg ++ '/' :: joinSegs rest

/-- Posix `path.isAbsolute`: the path starts with `/`. -/
def posixIsAbsolute (p : String) : Bool :=
  match p.data with
  | [] => false
  | c :: _ => c = '/'

/-- Posix `path.join` restricted to the two-argument form used at
session.ts:131 (no `.`/`..` normalisation is needed there). -/
def posixJoin (a b : String) : String := a ++ "/" ++ b

/-- Posix `path.dirname`: everything before the last `/`, with `.` for a
bare file name and `/` for a file at the root. -/
def posixDirname (p : String) : String :=
  match (splitSlash p.data).dropLast with
  | [] => "."
  | [[]] => "/"
  | segs => String.mk (joinSegs segs)

/-- Method `acceptChanges` (session.ts:129-140).  `readVirtualFile` maps a
scheme and path to the decoded content of that virtual document.  For each
path of the state's `filePaths` (an absent list behaving as empty), the
method reads the weaverbird-scheme document at that path, makes the parent
directory of the resolved target, and writes the content there. -/
def Session.acceptChanges (s : Session) (readVirtualFile : String → String → String) :
    Except Err (List FsOp) := do
  let st ← s.state
  return ((st.filePaths.getD []).map fun filePath =>
    let absolutePath := if posixIsAbsolute filePath then filePath
                        else posixJoin s.workspaceRoot filePath
    let decodedContent := readVirtualFile weaverbirdScheme filePath
    [FsOp.readVirtual weaverbirdScheme filePath,
     FsOp.mkdir (posixDirname absolutePath),
     FsOp.writeFile absolutePath decodedContent]).flatten

/-- Getter `retries` (session.ts:149-158): switch on the current state's
phase, with `approachRetries` as the default branch. -/
def Session.retries (s : Session) : Except Err Int := do
  let st ← s.state
  if st.phase = "Approach" then return s.approachRetries
  else if st.phase = "Codegen" then return s.codeGenRetries
  else return s.approachRetries

/-- Method `decreaseRetries` (session.ts:160-169): switch on the current
state's phase with no default branch. -/
def Session.decreaseRetries (s : Session) : Except Err Session := do
  let st ← s.state
  if st.phase = "Approach" then return { s with approachRetries := s.approachRetries - 1 }
  else if st.phase = "Codegen" then return { s with codeGenRetries := s.codeGenRetries - 1 }
  else return s

/-- Kind of the session's current state, when one is installed. -/
def Session.sessionKind (s : Session) : Option StateKind := s._state.map (fun st => st.kind)

/-- One invocation of a session-driving operation, carrying the outcomes
of the external calls it awaits. -/
inductive Op where
  | setup (b : Backend)
  | initCodegen
  | send (msg : String) (filesRes : Except Err (List String))
      (interactRes : Except Err SessionStateInteraction)

/-- Session after one operation.  A thrown error propagates to the caller
and leaves the session with whatever partial updates the method already
performed. -/
def applyOp (s : Session) : Op → Session
  | Op.setup b => (s.setupConversation b).1
  | Op.initCodegen =>
    match s.initCodegen with
    | Except.error _ => s
    | Except.ok s1 => s1
  | Op.send msg filesRes interactRes => (s.send msg filesRes interactRes).1

/-- Session after a sequence of operations. -/
def runOps (s : Session) : List Op → Session
  | [] => s
  | op :: ops => runOps (applyOp s op) ops

/-- Kinds of the current state before, between and after the operations of
a run. -/
def kindTrace (s : Session) : List Op → List (Option StateKind)
  | [] => [s.sessionKind]
  | op :: ops => s.sessionKind :: kindTrace (applyOp s op) ops

/-- Position of a state kind in the linear order `ConversationNotStarted →
Refinement → CodeGen` of the spec. -/
def StateKind.idx : StateKind → Nat
  | StateKind.conversationNotStarted => 0
  | StateKind.refinement => 1
  | StateKind.codeGen => 2

/-- Position of an optional state kind, an absent state counting as the
start. -/
def kindIdx : Option StateKind → Nat
  | none => 0
  | some k => k.idx

/-- Order on optional state kinds induced by the linear phase order. -/
def kindLe (a b : Option StateKind) : Prop := kindIdx a ≤ kindIdx b

instance : DecidableRel kindLe := fun a b => inferInstanceAs (Decidable (kindIdx a ≤ kindIdx b))

/-- Successor of a kind in the spec's linear order, the last kind being
its own successor. -/
def nextKind : StateKind → StateKind
  | StateKind.conversationNotStarted => StateKind.refinement
  | StateKind.refinement => StateKind.codeGen
  | StateKind.codeGen => StateKind.codeGen

/-- Side conditions of the amended linearity claim: `setupConversation` is
only invoked in the not-started state and succeeds, and (modelled from the
spec: the `interact` implementations of `sessionState.ts` are not among
the sources, and the spec promises three states with linear transitions) a
successor returned by `interact` stays at the current kind or advances to
the next one. -/
def stepAllowed (s : Session) : Op → Prop
  | Op.setup b =>
    s.sessionKind = some StateKind.conversationNotStarted ∧
      (s.setupConversation b).2.2 = Except.ok ()
  | Op.initCodegen => True
  | Op.send _ _ interactRes =>
    match interactRes with
    | Except.error _ => True
    | Except.ok resp =>
      match resp.nextState with
      | none => True
      | some nextSt =>
        match s.sessionKind with
        | none => True
        | some k => nextSt.kind = k ∨ nextSt.kind = nextKind k

/-- A run all of whose operations satisfy `stepAllowed` at the session
they are applied to. -/
def goodChain (s : Session) : List Op → Prop
  | [] => True
  | op :: ops => stepAllowed s op ∧ goodChain (applyOp s op) ops

/-- Sessions reachable from a fresh construction by any sequence of the
state-changing operations, with arbitrary outcomes of the external calls
(failures included). -/
inductive Reachable : Session → Prop where
  | init (workspaceRoot tabID : String) : Reachable (mkSession workspaceRoot tabID)
  | step (s : Session) (op : Op) : Reachable s → Reachable (applyOp s op)
  | retryStep (s s1 : Session) : Reachable s → s.decreaseRetries = Except.ok s1 → Reachable s1

/-- Backend whose calls all succeed, with fixed concrete payloads. -/
def backendOk : Backend :=
  { createConversation := Except.ok "conv-1"
    getSourceCodePath := fun _ _ => Except.ok "/repo/src"
    prepareRepoData := fun _ => Except.ok ("zipbuf", "sum-1")
    createUploadUrl := fun _ _ => Except.ok ("https://up", "up-1")
    uploadCode := fun _ _ => Except.ok () }

/-- C4: `decreaseRetries` decrements exactly the counter selected by the
current state's phase: in phase `Approach` only `approachRetries` drops by
one, in phase `Codegen` only `codeGenRetries` drops by one, and in any
other phase the session is returned unchanged. -/
theorem C4_decreaseRetries_by_phase (s : Session) (st : SessionState)
    (hst : s._state = some st) :
    (st.phase = "Approach" →
      s.decreaseRetries = Except.ok { s with approachRetries := s.approachRetries - 1 }) ∧
    (st.phase = "Codegen" →
      s.decreaseRetries = Except.ok { s with codeGenRetries := s.codeGenRetries - 1 }) ∧
    (st.phase ≠ "Approach" → st.phase ≠ "Codegen" → s.decreaseRetries = Except.ok s) := by
  refine ⟨fun h => ?_, fun h => ?_, fun h1 h2 => ?_⟩ <;>
    simp [Session.decreaseRetries, Session.state, hst, bind, Except.bind, pure, Except.pure, *]

/-- Witness for C4 at a session sitting in the refinement (`Approach`)
phase. -/
theorem C4_decreaseRetries_by_phase_witness :
    ({ mkSession "/w" "t" with
        _state := some (RefinementState ⟨"c", "u"⟩ "" "t") } : Session).decreaseRetries =
      Except.ok { mkSession "/w" "t" with
        _state := some (RefinementState ⟨"c", "u"⟩ "" "t")
        approachRetries := approachRetryLimit - 1 } :=
  (C4_decreaseRetries_by_phase _ (RefinementState ⟨"c", "u"⟩ "" "t") rfl).1 rfl

/-- C10: the `retries` getter is total over phases: `approachRetries` in
phase `Approach`, `codeGenRetries` in phase `Codegen`, and `approachRetries`
again for every other phase, in which `decreaseRetries` changes neither
counter. -/
theorem C10_retries_total (s : Session) (st : SessionState)
    (hst : s._state = some st) :
    (st.phase = "Approach" → s.retries = Except.ok s.approachRetries) ∧
    (st.phase = "Codegen" → s.retries = Except.ok s.codeGenRetries) ∧
    (st.phase ≠ "Approach" → st.phase ≠ "Codegen" →
      s.retries = Except.ok s.approachRetries ∧ s.decreaseRetries = Except.ok s) := by
  refine ⟨fun h => ?_, fun h => ?_, fun h1 h2 => ?_⟩ <;>
    simp [Session.retries, Session.decreaseRetries, Session.state, hst,
      bind, Except.bind, pure, Except.pure, *]

/-- Witness for C10 at a fresh session, whose not-started phase is neither
`Approach` nor `Codegen`. -/
theorem C10_retries_total_witness :
    (mkSession "/w" "t").retries = Except.ok (mkSession "/w" "t").approachRetries ∧
    (mkSession "/w" "t").decreaseRetries = Except.ok (mkSession "/w" "t") :=
  (C10_retries_total _ (ConversationNotStartedState "" "t") rfl).2.2
    (by decide) (by decide)

/-- Counterexample to C7: a session whose `_conversationId` holds the
empty string has stored a conversation id, yet reading the getter still
throws `ConversationIdNotFoundError`, because the code tests JavaScript
falsiness rather than presence. -/
theorem C7_counterexample :
    ({ mkSession "/w" "t" with _conversationId := some "" } : Session)._conversationId ≠ none ∧
    ({ mkSession "/w" "t" with _conversationId := some "" } : Session).conversationId =
      Except.error Err.conversationIdNotFound := by
  exact ⟨by simp, by decide⟩

/-- C7 as amended: `conversationId` throws `ConversationIdNotFoundError`
exactly when the stored field is absent or the empty string, `uploadId`
throws its error exactly when its field is absent or the empty string, and
otherwise each getter returns the stored identifier. -/
theorem C7_getters_falsy (s : Session) :
    (s.conversationId = Except.error Err.conversationIdNotFound ↔
      (s._conversationId = none ∨ s._conversationId = some "")) ∧
    (∀ c, s._conversationId = some c → c ≠ "" → s.conversationId = Except.ok c) ∧
    (s.uploadId = Except.error Err.uploadIdUnset ↔
      (s._uploadId = none ∨ s._uploadId = some "")) ∧
    (∀ u, s._uploadId = some u → u ≠ "" → s.uploadId = Except.ok u) := by
  refine ⟨?_, fun c hc hne => ?_, ?_, fun u hu hne => ?_⟩
  · cases h : s._conversationId with
    | none => simp [Session.conversationId, h]
    | some c =>
      by_cases hc : c = "" <;> simp [Session.conversationId, h, hc]
  · simp [Session.conversationId, hc, hne]
  · cases h : s._uploadId with
    | none => simp [Session.uploadId, h]
    | some u =>
      by_cases hu : u = "" <;> simp [Session.uploadId, h, hu]
  · simp [Session.uploadId, hu, hne]

/-- Witness for C7 as amended, at a session with both identifiers
stored and non-empty. -/
theorem C7_getters_falsy_witness :
    ({ mkSession "/w" "t" with _conversationId := some "c", _uploadId := some "u" } :
        Session).conversationId = Except.ok "c" ∧
    ({ mkSession "/w" "t" with _conversationId := some "c", _uploadId := some "u" } :
        Session).uploadId = Except.ok "u" :=
  ⟨(C7_getters_falsy _).2.1 "c" rfl (by decide),
   (C7_getters_falsy _).2.2.2 "u" rfl (by decide)⟩

/-- C1: when the interact of `send` returns a successor state, the session
reads the outgoing state's approach, cancels the outgoing token source,
installs the successor, and then writes that approach into both the
successor state and the session, in that order, returning the response's
interaction. -/
theorem C1_send_successor_transition (s : Session) (st nextSt : SessionState)
    (msg : String) (files : List String) (resp : SessionStateInteraction)
    (hst : s._state = some st) (hns : resp.nextState = some nextSt) :
    s.send msg (Except.ok files) (Except.ok resp) =
      ({ (if s.task = "" then { s with task := msg } else s) with
          _state := some { nextSt with approach := st.approach }
          approach := st.approach },
       [Event.readApproach st.approach, Event.cancelToken, Event.installState,
        Event.setStateApproach st.approach, Event.setSessionApproach st.approach],
       Except.ok resp.interaction) := by
  by_cases h : s.task = "" <;>
    simp [Session.send, Session.nextInteraction, Session.state, hst, hns, h]

/-- Witness for C1 at a fresh session moving to a refinement state. -/
theorem C1_send_successor_transition_witness :
    ((mkSession "/w" "t").send "m" (Except.ok [])
        (Except.ok ⟨some (RefinementState ⟨"c", "u"⟩ "x" "t"), "hello"⟩)).2.1 =
      [Event.readApproach "", Event.cancelToken, Event.installState,
       Event.setStateApproach "", Event.setSessionApproach ""] := by
  rw [C1_send_successor_transition (mkSession "/w" "t") (ConversationNotStartedState "" "t")
    (RefinementState ⟨"c", "u"⟩ "x" "t") "m" []
    ⟨some (RefinementState ⟨"c", "u"⟩ "x" "t"), "hello"⟩ rfl rfl]
  decide

/-- C6: when the interact of `send` returns no successor state, the
current state object, the session approach and both retry counters are
unchanged, no cancellation happens, and the response's interaction is
returned. -/
theorem C6_send_no_successor_frame (s : Session) (st : SessionState)
    (msg : String) (files : List String) (resp : SessionStateInteraction)
    (hst : s._state = some st) (hns : resp.nextState = none) :
    (s.send msg (Except.ok files) (Except.ok resp)).1._state = s._state ∧
    (s.send msg (Except.ok files) (Except.ok resp)).1.approach = s.approach ∧
    (s.send msg (Except.ok files) (Except.ok resp)).1.approachRetries = s.approachRetries ∧
    (s.send msg (Except.ok files) (Except.ok resp)).1.codeGenRetries = s.codeGenRetries ∧
    Event.cancelToken ∉ (s.send msg (Except.ok files) (Except.ok resp)).2.1 ∧
    (s.send msg (Except.ok files) (Except.ok resp)).2.2 = Except.ok resp.interaction := by
  by_cases h : s.task = "" <;>
    simp [Session.send, Session.nextInteraction, Session.state, hst, hns, h]

/-- Witness for C6 at a fresh session with a successor-free response. -/
theorem C6_send_no_successor_frame_witness :
    ((mkSession "/w" "t").send "m" (Except.ok [])
        (Except.ok ⟨none, "hi"⟩)).1._state = (mkSession "/w" "t")._state ∧
    ((mkSession "/w" "t").send "m" (Except.ok [])
        (Except.ok ⟨none, "hi"⟩)).2.2 = Except.ok "hi" := by
  have h := C6_send_no_successor_frame (mkSession "/w" "t")
    (ConversationNotStartedState "" "t") "m" [] ⟨none, "hi"⟩ rfl rfl
  exact ⟨h.1, h.2.2.2.2.2⟩

/-- C2: a fully successful `setupConversation` performs exactly the calls
create-conversation, create-upload-url (with the fresh conversation id and
the repo checksum) and upload, in that order, stores the returned
identifiers, and installs a `RefinementState` carrying the new
conversation id. -/
theorem C2_setupConversation_protocol (s : Session) (b : Backend)
    (cid root buf chk url uid : String)
    (h1 : b.createConversation = Except.ok cid)
    (h2 : b.getSourceCodePath s.workspaceRoot "src" = Except.ok root)
    (h3 : b.prepareRepoData root = Except.ok (buf, chk))
    (h4 : b.createUploadUrl cid chk = Except.ok (url, uid))
    (h5 : b.uploadCode url buf = Except.ok ())
    (hcid : cid ≠ "") (huid : uid ≠ "") :
    s.setupConversation b =
      ({ s with
          _conversationId := some cid
          _uploadId := some uid
          _state := some (RefinementState
            { conversationId := cid, uploadId := uid } "" s.tabID) },
       [BackendCall.createConversation, BackendCall.createUploadUrl cid chk,
        BackendCall.uploadCode url buf],
       Except.ok ()) := by
  simp [Session.setupConversation, h1, h2, h3, h4, h5,
    Session.getSessionStateConfig, Session.conversationId, Session.uploadId, hcid, huid,
    bind, Except.bind, pure, Except.pure]

/-- Witness for C2 at a fresh session and an all-successful backend. -/
theorem C2_setupConversation_protocol_witness :
    (mkSession "/w" "t").setupConversation backendOk =
      ({ mkSession "/w" "t" with
          _conversationId := some "conv-1"
          _uploadId := some "up-1"
          _state := some (RefinementState
            { conversationId := "conv-1", uploadId := "up-1" } "" "t") },
       [BackendCall.createConversation, BackendCall.createUploadUrl "conv-1" "sum-1",
        BackendCall.uploadCode "https://up" "zipbuf"],
       Except.ok ()) :=
  C2_setupConversation_protocol (mkSession "/w" "t") backendOk
    "conv-1" "/repo/src" "zipbuf" "sum-1" "https://up" "up-1"
    rfl rfl rfl rfl rfl (by decide) (by decide)

/-- Ingredients of one call to `send`: the message and the outcomes of the
external calls the method awaits. -/
structure SendInput where
  msg : String
  filesRes : Except Err (List String)
  interactRes : Except Err SessionStateInteraction

/-- Folding of a sequence of `send` calls over a session. -/
def sendMany (s : Session) : List SendInput → Session
  | [] => s
  | i :: rest => sendMany (s.send i.msg i.filesRes i.interactRes).1 rest

/-- Helper: `nextInteraction` never touches the task field. -/
theorem nextInteraction_task (s : Session) (filesRes : Except Err (List String))
    (interactRes : Except Err SessionStateInteraction) :
    (s.nextInteraction filesRes interactRes).1.task = s.task := by
  unfold Session.nextInteraction
  repeat' split
  all_goals rfl

/-- Helper: the task after one `send` is the message when the task was
empty, and the old task otherwise. -/
theorem send_task (s : Session) (msg : String) (filesRes : Except Err (List String))
    (interactRes : Except Err SessionStateInteraction) :
    (s.send msg filesRes interactRes).1.task = if s.task = "" then msg else s.task := by
  by_cases h : s.task = "" <;> simp [Session.send, h, nextInteraction_task]

/-- Helper: the task after a sequence of `send` calls is the first
non-empty message when the task started empty, and the old task
otherwise. -/
theorem sendMany_task (inputs : List SendInput) (s : Session) :
    (sendMany s inputs).task =
      if s.task = "" then (((inputs.map SendInput.msg).filter fun m => m ≠ "").headD "")
      else s.task := by
  induction inputs generalizing s with
  | nil => by_cases h : s.task = "" <;> simp [sendMany, h]
  | cons i rest ih =>
    simp only [sendMany, List.map_cons]
    rw [ih, send_task]
    by_cases h : s.task = ""
    · by_cases hm : i.msg = "" <;> simp [h, hm, List.filter_cons]
    · simp [h]

/-- C8: `send` stores the incoming message as the session task only when
the task is still the empty string, so from a fresh session the final task
is the first non-empty message ever sent (empty messages leave the task
unset, and later messages never overwrite a set task). -/
theorem C8_task_first_message :
    (∀ (s : Session) (msg : String) (filesRes : Except Err (List String))
        (interactRes : Except Err SessionStateInteraction),
      (s.send msg filesRes interactRes).1.task = if s.task = "" then msg else s.task) ∧
    (∀ (workspaceRoot tabID : String) (inputs : List SendInput),
      (sendMany (mkSession workspaceRoot tabID) inputs).task =
        (((inputs.map SendInput.msg).filter fun m => m ≠ "").headD "")) := by
  refine ⟨send_task, fun workspaceRoot tabID inputs => ?_⟩
  rw [sendMany_task]
  simp [mkSession]

/-- Resolution of a generated file path against the workspace root
(session.ts:131): absolute paths are used unchanged, relative ones are
joined under the root. -/
def resolvePath (workspaceRoot p : String) : String :=
  if posixIsAbsolute p then p else posixJoin workspaceRoot p

/-- Written (path, content) pairs of an effect trace, in order. -/
def writesOf : List FsOp → List (String × String)
  | [] => []
  | FsOp.readVirtual _ _ :: rest => writesOf rest
  | FsOp.mkdir _ :: rest => writesOf rest
  | FsOp.writeFile p c :: rest => (p, c) :: writesOf rest

/-- Read (scheme, path) pairs of an effect trace, in order. -/
def readsOf : List FsOp → List (String × String)
  | [] => []
  | FsOp.readVirtual sch p :: rest => (sch, p) :: readsOf rest
  | FsOp.mkdir _ :: rest => readsOf rest
  | FsOp.writeFile _ _ :: rest => readsOf rest

/-- Adjacency requirement: a write must be directly preceded by the
creation of the written path's parent directory. -/
def preparedPair : FsOp → FsOp → Prop
  | _, FsOp.readVirtual _ _ => True
  | _, FsOp.mkdir _ => True
  | prev, FsOp.writeFile p _ => prev = FsOp.mkdir (posixDirname p)

/-- An effect trace does not begin with a write. -/
def headNotWrite : List FsOp → Prop
  | [] => True
  | FsOp.readVirtual _ _ :: _ => True
  | FsOp.mkdir _ :: _ => True
  | FsOp.writeFile _ _ :: _ => False

/-- Every write of the trace has the creation of its parent directory
immediately before it. -/
def writesPrepared (ops : List FsOp) : Prop :=
  headNotWrite ops ∧ List.Chain' preparedPair ops

/-- Helper: the effect trace of `acceptChanges` over a present file list,
written as a flat map. -/
theorem acceptTrace_eq (s : Session) (st : SessionState)
    (readVirtualFile : String → String → String) (hst : s._state = some st)
    (l : List String) (hfp : st.filePaths = some l) :
    s.acceptChanges readVirtualFile = Except.ok ((l.map fun p =>
      [FsOp.readVirtual weaverbirdScheme p,
       FsOp.mkdir (posixDirname (resolvePath s.workspaceRoot p)),
       FsOp.writeFile (resolvePath s.workspaceRoot p)
         (readVirtualFile weaverbirdScheme p)]).flatten) := by
  simp [Session.acceptChanges, Session.state, hst, hfp, resolvePath,
    bind, Except.bind, pure, Except.pure]

/-- Helper: the writes of the `acceptChanges` trace are exactly the
resolved paths with their virtual contents. -/
theorem writesOf_acceptTrace (root : String) (readVirtualFile : String → String → String)
    (l : List String) :
    writesOf ((l.map fun p =>
      [FsOp.readVirtual weaverbirdScheme p,
       FsOp.mkdir (posixDirname (resolvePath root p)),
       FsOp.writeFile (resolvePath root p) (readVirtualFile weaverbirdScheme p)]).flatten) =
      l.map fun p => (resolvePath root p, readVirtualFile weaverbirdScheme p) := by
  induction l with
  | nil => rfl
  | cons p rest ih => simp [writesOf, ih]

/-- Helper: the reads of the `acceptChanges` trace are exactly the
weaverbird-scheme documents at the listed paths. -/
theorem readsOf_acceptTrace (root : String) (readVirtualFile : String → String → String)
    (l : List String) :
    readsOf ((l.map fun p =>
      [FsOp.readVirtual weaverbirdScheme p,
       FsOp.mkdir (posixDirname (resolvePath root p)),
       FsOp.writeFile (resolvePath root p) (readVirtualFile weaverbirdScheme p)]).flatten) =
      l.map fun p => (weaverbirdScheme, p) := by
  induction l with
  | nil => rfl
  | cons p rest ih => simp [readsOf, ih]

/-- Helper: in the `acceptChanges` trace every write directly follows the
creation of its parent directory. -/
theorem prepared_acceptTrace (root : String) (readVirtualFile : String → String → String)
    (l : List String) :
    writesPrepared ((l.map fun p =>
      [FsOp.readVirtual weaverbirdScheme p,
       FsOp.mkdir (posixDirname (resolvePath root p)),
       FsOp.writeFile (resolvePath root p) (readVirtualFile weaverbirdScheme p)]).flatten) := by
  constructor
  · cases l with
    | nil => exact trivial
    | cons p rest => exact trivial
  · induction l with
    | nil => simp
    | cons p rest ih =>
      rw [List.map_cons, List.flatten_cons, List.chain'_append]
      refine ⟨?_, ih, ?_⟩
      · simp [List.chain'_cons, preparedPair]
      · intro x hx y hy
        cases rest with
        | nil => simp at hy
        | cons q qs =>
          simp [List.flatten_cons] at hy
          subst hy
          exact trivial

/-- C3: for each path of the state's `filePaths` (and no other path),
`acceptChanges` reads the weaverbird-scheme virtual document at that path
and writes its content to the path resolved against the workspace root
(absolute paths unchanged), creating the parent directory immediately
before each write; an absent `filePaths` produces no effects. -/
theorem C3_acceptChanges_writes (s : Session) (st : SessionState)
    (readVirtualFile : String → String → String) (hst : s._state = some st) :
    (∀ l, st.filePaths = some l →
      ∀ ops, s.acceptChanges readVirtualFile = Except.ok ops →
        writesOf ops = (l.map fun p =>
          (resolvePath s.workspaceRoot p, readVirtualFile weaverbirdScheme p)) ∧
        readsOf ops = (l.map fun p => (weaverbirdScheme, p)) ∧
        writesPrepared ops) ∧
    (st.filePaths = none → s.acceptChanges readVirtualFile = Except.ok []) := by
  refine ⟨fun l hfp ops hops => ?_, fun hfp => ?_⟩
  · rw [acceptTrace_eq s st readVirtualFile hst l hfp] at hops
    injection hops with h
    subst h
    exact ⟨writesOf_acceptTrace s.workspaceRoot readVirtualFile l,
      readsOf_acceptTrace s.workspaceRoot readVirtualFile l,
      prepared_acceptTrace s.workspaceRoot readVirtualFile l⟩
  · simp [Session.acceptChanges, Session.state, hst, hfp,
      bind, Except.bind, pure, Except.pure]

/-- Witness for C3 at a session with one relative and one absolute
generated path. -/
theorem C3_acceptChanges_writes_witness :
    writesOf [FsOp.readVirtual "weaverbird" "a.txt", FsOp.mkdir "/w",
        FsOp.writeFile "/w/a.txt" "a.txt",
        FsOp.readVirtual "weaverbird" "/abs/b.txt", FsOp.mkdir "/abs",
        FsOp.writeFile "/abs/b.txt" "/abs/b.txt"] =
      [("/w/a.txt", "a.txt"), ("/abs/b.txt", "/abs/b.txt")] ∧
    readsOf [FsOp.readVirtual "weaverbird" "a.txt", FsOp.mkdir "/w",
        FsOp.writeFile "/w/a.txt" "a.txt",
        FsOp.readVirtual "weaverbird" "/abs/b.txt", FsOp.mkdir "/abs",
        FsOp.writeFile "/abs/b.txt" "/abs/b.txt"] =
      [("weaverbird", "a.txt"), ("weaverbird", "/abs/b.txt")] ∧
    writesPrepared [FsOp.readVirtual "weaverbird" "a.txt", FsOp.mkdir "/w",
        FsOp.writeFile "/w/a.txt" "a.txt",
        FsOp.readVirtual "weaverbird" "/abs/b.txt", FsOp.mkdir "/abs",
        FsOp.writeFile "/abs/b.txt" "/abs/b.txt"] := by
  have h := (C3_acceptChanges_writes
    { mkSession "/w" "t" with
        _state := some { ConversationNotStartedState "" "t" with
          filePaths := some ["a.txt", "/abs/b.txt"] } }
    { ConversationNotStartedState "" "t" with filePaths := some ["a.txt", "/abs/b.txt"] }
    (fun _ p => p) rfl).1 ["a.txt", "/abs/b.txt"] rfl
    [FsOp.readVirtual "weaverbird" "a.txt", FsOp.mkdir "/w",
     FsOp.writeFile "/w/a.txt" "a.txt",
     FsOp.readVirtual "weaverbird" "/abs/b.txt", FsOp.mkdir "/abs",
     FsOp.writeFile "/abs/b.txt" "/abs/b.txt"] (by decide)
  exact h

/-- Helper: `setupConversation` either keeps the state field or installs
some state. -/
theorem setup_state (s : Session) (b : Backend) :
    ((s.setupConversation b).1)._state = s._state ∨
      ∃ st, ((s.setupConversation b).1)._state = some st := by
  unfold Session.setupConversation
  dsimp only
  repeat' split
  all_goals simp

/-- Helper: either `setupConversation` does not succeed, or it leaves the
session in a refinement state. -/
theorem setup_cases (s : Session) (b : Backend) :
    (s.setupConversation b).2.2 ≠ Except.ok () ∨
      ((s.setupConversation b).1).sessionKind = some StateKind.refinement := by
  unfold Session.setupConversation
  dsimp only
  repeat' split
  all_goals simp [Session.sessionKind, RefinementState]

/-- Helper: a successful `initCodegen` installs a state, and that state is
a code-generation one. -/
theorem initCodegen_ok_state (s s1 : Session) (h : s.initCodegen = Except.ok s1) :
    ∃ st, s1._state = some st ∧ st.kind = StateKind.codeGen := by
  simp only [Session.initCodegen, bind, Except.bind, pure, Except.pure] at h
  split at h
  · cases h
  · split at h
    · cases h
    · injection h with h1
      subst h1
      exact ⟨_, rfl, rfl⟩

/-- Helper: `nextInteraction` either keeps the state field or installs
some state. -/
theorem nextInteraction_state (s : Session) (filesRes : Except Err (List String))
    (interactRes : Except Err SessionStateInteraction) :
    ((s.nextInteraction filesRes interactRes).1)._state = s._state ∨
      ∃ st, ((s.nextInteraction filesRes interactRes).1)._state = some st := by
  unfold Session.nextInteraction
  repeat' split
  all_goals simp

/-- Helper: `send` either keeps the state field or installs some state. -/
theorem send_state (s : Session) (msg : String) (filesRes : Except Err (List String))
    (interactRes : Except Err SessionStateInteraction) :
    ((s.send msg filesRes interactRes).1)._state = s._state ∨
      ∃ st, ((s.send msg filesRes interactRes).1)._state = some st := by
  by_cases h : s.task = ""
  · have := nextInteraction_state { s with task := msg } filesRes interactRes
    simpa [Session.send, h] using this
  · have := nextInteraction_state s filesRes interactRes
    simpa [Session.send, h] using this

/-- Helper: a successful `decreaseRetries` keeps the state field. -/
theorem decreaseRetries_state (s s1 : Session) (h : s.decreaseRetries = Except.ok s1) :
    s1._state = s._state := by
  simp only [Session.decreaseRetries, Session.state, bind, Except.bind, pure, Except.pure] at h
  split at h
  · cases h
  · split at h
    · injection h with h1
      subst h1
      rfl
    · split at h
      · injection h with h1
        subst h1
        rfl
      · injection h with h1
        subst h1
        rfl

/-- C9: the error branch of the `state` getter is unreachable: every
session reachable from the constructor by any sequence of operations, with
arbitrary outcomes of the external calls (failures included), carries a
defined state, so reading the getter never throws. -/
theorem C9_state_getter_total (s : Session) (h : Reachable s) :
    ∃ st, s.state = Except.ok st := by
  have hs : ∃ st, s._state = some st := by
    induction h with
    | init workspaceRoot tabID => exact ⟨_, rfl⟩
    | step s' op hr ih =>
      cases op with
      | setup b =>
        rcases setup_state s' b with he | he
        · rcases ih with ⟨st, hst⟩
          exact ⟨st, by simpa [applyOp, he] using hst⟩
        · exact he
      | initCodegen =>
        cases hi : s'.initCodegen with
        | error e =>
          rcases ih with ⟨st, hst⟩
          exact ⟨st, by simpa [applyOp, hi] using hst⟩
        | ok s1 =>
          rcases initCodegen_ok_state s' s1 hi with ⟨st, hst, _⟩
          exact ⟨st, by simpa [applyOp, hi] using hst⟩
      | send msg filesRes interactRes =>
        rcases send_state s' msg filesRes interactRes with he | he
        · rcases ih with ⟨st, hst⟩
          exact ⟨st, by simpa [applyOp, he] using hst⟩
        · exact he
    | retryStep s' s1 hr heq ih =>
      rcases ih with ⟨st, hst⟩
      exact ⟨st, by rw [decreaseRetries_state s' s1 heq]; exact hst⟩
  rcases hs with ⟨st, hst⟩
  exact ⟨st, by simp [Session.state, hst]⟩

/-- Witness for C9 at a freshly constructed session. -/
theorem C9_state_getter_total_witness :
    ∃ st, (mkSession "/w" "t").state = Except.ok st :=
  C9_state_getter_total (mkSession "/w" "t") (Reachable.init "/w" "t")

/-- Operation sequence that regresses the state machine: a second
`setupConversation` issued after code generation has started, every
external call succeeding. -/
def opsBackAndForth : List Op :=
  [Op.setup backendOk, Op.initCodegen, Op.setup backendOk]

/-- Counterexample to C5: from a fresh session, running
`setupConversation`, `initCodegen` and `setupConversation` again (all
calls succeeding) visits ConversationNotStarted, Refinement, CodeGen and
then Refinement once more, so the state does not only ever advance along
the linear order. -/
theorem C5_counterexample :
    kindTrace (mkSession "/w" "t") opsBackAndForth =
      [some StateKind.conversationNotStarted, some StateKind.refinement,
       some StateKind.codeGen, some StateKind.refinement] ∧
    ¬ List.Chain' kindLe (kindTrace (mkSession "/w" "t") opsBackAndForth) := by
  have ht : kindTrace (mkSession "/w" "t") opsBackAndForth =
      [some StateKind.conversationNotStarted, some StateKind.refinement,
       some StateKind.codeGen, some StateKind.refinement] := by decide
  refine ⟨ht, ?_⟩
  rw [ht]
  simp [List.chain'_cons, List.chain'_singleton, kindLe, kindIdx, StateKind.idx]

/-- Helper: `nextInteraction` never touches the stored identifiers. -/
theorem nextInteraction_ids (s : Session) (filesRes : Except Err (List String))
    (interactRes : Except Err SessionStateInteraction) :
    (s.nextInteraction filesRes interactRes).1._conversationId = s._conversationId ∧
    (s.nextInteraction filesRes interactRes).1._uploadId = s._uploadId := by
  unfold Session.nextInteraction
  repeat' split
  all_goals exact ⟨rfl, rfl⟩

/-- Helper: `send` never touches the stored identifiers. -/
theorem send_ids (s : Session) (msg : String) (filesRes : Except Err (List String))
    (interactRes : Except Err SessionStateInteraction) :
    (s.send msg filesRes interactRes).1._conversationId = s._conversationId ∧
    (s.send msg filesRes interactRes).1._uploadId = s._uploadId := by
  by_cases h : s.task = ""
  · have := nextInteraction_ids { s with task := msg } filesRes interactRes
    simpa [Session.send, h] using this
  · have := nextInteraction_ids s filesRes interactRes
    simpa [Session.send, h] using this

/-- Helper: a falsy stored conversation id makes its getter throw. -/
theorem conversationId_falsy (s : Session) (h : s._conversationId.getD "" = "") :
    s.conversationId = Except.error Err.conversationIdNotFound := by
  cases hc : s._conversationId with
  | none => simp [Session.conversationId, hc]
  | some c =>
    rw [hc] at h
    simp only [Option.getD_some] at h
    simp [Session.conversationId, hc, h]

/-- Helper: a falsy stored upload id makes its getter throw. -/
theorem uploadId_falsy (s : Session) (h : s._uploadId.getD "" = "") :
    s.uploadId = Except.error Err.uploadIdUnset := by
  cases hc : s._uploadId with
  | none => simp [Session.uploadId, hc]
  | some u =>
    rw [hc] at h
    simp only [Option.getD_some] at h
    simp [Session.uploadId, hc, h]

/-- Helper: while either stored identifier is falsy, `initCodegen` throws
from `getSessionStateConfig` and leaves the session unchanged. -/
theorem initCodegen_falsy (s : Session)
    (h : s._conversationId.getD "" = "" ∨ s._uploadId.getD "" = "") :
    applyOp s Op.initCodegen = s := by
  have hcfg : ∃ e, s.getSessionStateConfig = Except.error e := by
    rcases h with h | h
    · exact ⟨Err.conversationIdNotFound, by simp [Session.getSessionStateConfig,
        conversationId_falsy s h, bind, Except.bind]⟩
    · cases hc : s.conversationId with
      | error e =>
        exact ⟨e, by simp [Session.getSessionStateConfig, hc, bind, Except.bind]⟩
      | ok conv =>
        exact ⟨Err.uploadIdUnset, by simp [Session.getSessionStateConfig, hc,
          uploadId_falsy s h, bind, Except.bind]⟩
  rcases hcfg with ⟨e, he⟩
  simp [applyOp, Session.initCodegen, he, bind, Except.bind]

/-- Helper: `nextInteraction` keeps the state kind unless interact
returned a successor, in which case the new kind is the successor's. -/
theorem nextInteraction_kind_cases (s : Session) (filesRes : Except Err (List String))
    (interactRes : Except Err SessionStateInteraction) :
    ((s.nextInteraction filesRes interactRes).1).sessionKind = s.sessionKind ∨
    ∃ st resp nextSt, s._state = some st ∧ interactRes = Except.ok resp ∧
      resp.nextState = some nextSt ∧
      ((s.nextInteraction filesRes interactRes).1).sessionKind = some nextSt.kind := by
  cases filesRes with
  | error e => exact Or.inl rfl
  | ok files =>
    cases hs : s._state with
    | none => exact Or.inl (by simp [Session.nextInteraction, Session.state, hs])
    | some st =>
      cases interactRes with
      | error e => exact Or.inl (by simp [Session.nextInteraction, Session.state, hs])
      | ok resp =>
        cases hn : resp.nextState with
        | none => exact Or.inl (by simp [Session.nextInteraction, Session.state, hs, hn])
        | some nextSt =>
          refine Or.inr ⟨st, resp, nextSt, rfl, rfl, hn, ?_⟩
          simp [Session.nextInteraction, Session.state, hs, hn, Session.sessionKind]

/-- Helper: `send` keeps the state kind unless interact returned a
successor, in which case the new kind is the successor's. -/
theorem send_kind_cases (s : Session) (msg : String) (filesRes : Except Err (List String))
    (interactRes : Except Err SessionStateInteraction) :
    ((s.send msg filesRes interactRes).1).sessionKind = s.sessionKind ∨
    ∃ st resp nextSt, s._state = some st ∧ interactRes = Except.ok resp ∧
      resp.nextState = some nextSt ∧
      ((s.send msg filesRes interactRes).1).sessionKind = some nextSt.kind := by
  by_cases h : s.task = ""
  · have := nextInteraction_kind_cases { s with task := msg } filesRes interactRes
    simpa [Session.send, h, Session.sessionKind] using this
  · have := nextInteraction_kind_cases s filesRes interactRes
    simpa [Session.send, h, Session.sessionKind] using this

/-- Helper: the kind index never decreases across one allowed
operation. -/
theorem stepAllowed_kindLe (s : Session) (op : Op) (h : stepAllowed s op) :
    kindLe s.sessionKind (applyOp s op).sessionKind := by
  cases op with
  | setup b =>
    obtain ⟨hk, hok⟩ := h
    rcases setup_cases s b with hne | hkind
    · exact absurd hok hne
    · simp only [applyOp]
      rw [hk, hkind]
      decide
  | initCodegen =>
    simp only [applyOp]
    cases hi : s.initCodegen with
    | error e => exact Nat.le_refl _
    | ok s1 =>
      rcases initCodegen_ok_state s s1 hi with ⟨st, hst, hkind⟩
      have hs1 : s1.sessionKind = some StateKind.codeGen := by
        simp [Session.sessionKind, hst, hkind]
      rw [hs1]
      cases hsk : s.sessionKind with
      | none => decide
      | some k => cases k <;> decide
  | send msg filesRes interactRes =>
    rcases send_kind_cases s msg filesRes interactRes with he |
      ⟨st, resp, nextSt, hst, hir, hns, hkk⟩
    · simp only [applyOp]
      rw [he]
      exact Nat.le_refl _
    · have hsk : s.sessionKind = some st.kind := by simp [Session.sessionKind, hst]
      subst hir
      simp only [stepAllowed, hns, hsk] at h
      simp only [applyOp]
      rw [hkk, hsk]
      rcases h with h | h <;> rw [h]
      · exact Nat.le_refl _
      · cases st.kind <;> decide

/-- Helper: the first entry of a run's kind trace is the kind of the
session it starts from. -/
theorem kindTrace_head (s : Session) (ops : List Op) :
    (kindTrace s ops).head? = some s.sessionKind := by
  cases ops <;> rfl

/-- Helper: the kind of the starting session is an entry of the run's kind
trace. -/
theorem kindTrace_mem (s : Session) (ops : List Op) :
    s.sessionKind ∈ kindTrace s ops := by
  cases ops <;> simp [kindTrace]

/-- Helper: along a run of allowed operations the kind index never
decreases between consecutive sessions. -/
theorem goodChain_chain (ops : List Op) : ∀ s : Session, goodChain s ops →
    List.Chain' kindLe (kindTrace s ops) := by
  induction ops with
  | nil =>
    intro s _
    simp [kindTrace]
  | cons op ops ih =>
    intro s h
    obtain ⟨hop, hrest⟩ := h
    simp only [kindTrace]
    refine List.chain'_cons'.mpr ⟨?_, ih _ hrest⟩
    intro y hy
    rw [kindTrace_head, Option.mem_some_iff] at hy
    subst hy
    exact stepAllowed_kindLe s op hop

/-- Helper: a run of allowed operations that never visits a refinement
state keeps both stored identifiers falsy and cannot reach a
code-generation state. -/
theorem no_refinement_no_codeGen (ops : List Op) : ∀ s : Session, goodChain s ops →
    some StateKind.refinement ∉ kindTrace s ops →
    (s._conversationId.getD "" = "" ∨ s._uploadId.getD "" = "") →
    s.sessionKind ≠ some StateKind.codeGen →
    (runOps s ops).sessionKind ≠ some StateKind.codeGen := by
  induction ops with
  | nil =>
    intro s _ _ _ hk
    exact hk
  | cons op ops ih =>
    intro s hg hmem hids hk
    obtain ⟨hop, hrest⟩ := hg
    simp only [kindTrace, List.mem_cons, not_or] at hmem
    obtain ⟨hm1, hm2⟩ := hmem
    simp only [runOps]
    cases op with
    | setup b =>
      obtain ⟨hkind, hok⟩ := hop
      rcases setup_cases s b with hne | hrk
      · exact absurd hok hne
      · exfalso
        apply hm2
        have happ : (applyOp s (Op.setup b)).sessionKind = some StateKind.refinement := hrk
        rw [← happ]
        exact kindTrace_mem _ ops
    | initCodegen =>
      have happ := initCodegen_falsy s hids
      rw [happ] at hm2 hrest ⊢
      exact ih s hrest hm2 hids hk
    | send msg filesRes interactRes =>
      have hi := send_ids s msg filesRes interactRes
      have hids2 : ((applyOp s (Op.send msg filesRes interactRes))._conversationId.getD "" = ""
          ∨ (applyOp s (Op.send msg filesRes interactRes))._uploadId.getD "" = "") := by
        simp only [applyOp]
        rw [hi.1, hi.2]
        exact hids
      rcases send_kind_cases s msg filesRes interactRes with he |
        ⟨st, resp, nextSt, hst, hir, hns, hkk⟩
      · refine ih _ hrest hm2 hids2 ?_
        simp only [applyOp]
        rw [he]
        exact hk
      · have hsk : s.sessionKind = some st.kind := by simp [Session.sessionKind, hst]
        subst hir
        simp only [stepAllowed, hns, hsk] at hop
        have hstk : st.kind = StateKind.conversationNotStarted := by
          have h1 : st.kind ≠ StateKind.refinement := by
            intro hh
            exact hm1 (by rw [hsk, hh])
          have h2 : st.kind ≠ StateKind.codeGen := by
            intro hh
            exact hk (by rw [hsk, hh])
          cases hc : st.kind
          · rfl
          · exact absurd hc h1
          · exact absurd hc h2
        rcases hop with hsame | hadv
        · refine ih _ hrest hm2 hids2 ?_
          simp only [applyOp]
          rw [hkk, hsame, hstk]
          simp
        · exfalso
          apply hm2
          have hres : (applyOp s (Op.send msg filesRes (Except.ok resp))).sessionKind =
              some StateKind.refinement := by
            simp only [applyOp]
            rw [hkk, hadv, hstk]
            rfl
          rw [← hres]
          exact kindTrace_mem _ ops

/-- C5 as amended: every session starts in `ConversationNotStartedState`,
and along any sequence of `setupConversation`, `initCodegen` and `send`
operations in which each `setupConversation` call is issued in the
not-started state and completes without error, and each interact successor
follows the spec's linear order, the state kind never moves backwards and
the session is in a code-generation state only after having visited a
refinement state. -/
theorem C5_linear_progress (workspaceRoot tabID : String) (ops : List Op)
    (h : goodChain (mkSession workspaceRoot tabID) ops) :
    (mkSession workspaceRoot tabID).sessionKind = some StateKind.conversationNotStarted ∧
    List.Chain' kindLe (kindTrace (mkSession workspaceRoot tabID) ops) ∧
    ((runOps (mkSession workspaceRoot tabID) ops).sessionKind = some StateKind.codeGen →
      some StateKind.refinement ∈ kindTrace (mkSession workspaceRoot tabID) ops) := by
  refine ⟨rfl, goodChain_chain ops _ h, fun hcg => ?_⟩
  by_contra hmem
  exact no_refinement_no_codeGen ops _ h hmem (Or.inl rfl)
    (by simp [mkSession, Session.sessionKind, ConversationNotStartedState]) hcg

/-- Witness for the amended C5 on a setup-then-initCodegen run, whose side
conditions hold. -/
theorem C5_linear_progress_witness :
    goodChain (mkSession "/w" "t") [Op.setup backendOk, Op.initCodegen] ∧
    List.Chain' kindLe (kindTrace (mkSession "/w" "t") [Op.setup backendOk, Op.initCodegen]) := by
  have hg : goodChain (mkSession "/w" "t") [Op.setup backendOk, Op.initCodegen] :=
    ⟨⟨rfl, by decide⟩, trivial, trivial⟩
  exact ⟨hg, (C5_linear_progress "/w" "t" _ hg).2.1⟩

end Weaverbird
